import Mathlib

/-!
# Verification of the frads non-coplanar shading (NCP) pipeline

Shallow embedding of `frads/ncp.py` and `frads/radmtx.py`.  The geometry
kernel (`frads.geom`), the primitive parser (`frads.parsers`), and the
utilities (`frads.utils`, `frads.matrix`) are not part of the provided
sources; where a claim depends on them they are modelled from the spec
(§4.1 Geometry Kernel, §4.3 Sender/Receiver Model) and flagged
`Modelled from the spec:` in their doc comments.  Real-number rotation by
an arbitrary integer degree is irrational, so the rotation operation is a
parameter of the embedded port synthesiser; everything else is concrete
over `ℚ`.
-/

namespace Frads

/-- 3D vector with rational coordinates.  Modelled from the spec:
`frads.geom.Vector` (geometry kernel, not under `src/`). -/
structure V3 where
  x : ℚ
  y : ℚ
  z : ℚ
deriving DecidableEq, Repr

instance : Inhabited V3 := ⟨⟨0, 0, 0⟩⟩

/-- Modelled from the spec: `Vector.scale` — componentwise scalar multiple. -/
def V3.scale (v : V3) (s : ℚ) : V3 := ⟨v.x * s, v.y * s, v.z * s⟩

/-- Modelled from the spec: `Vector.reverse` — negation of a vector. -/
def V3.reverse (v : V3) : V3 := ⟨-v.x, -v.y, -v.z⟩

/-- Modelled from the spec: vector addition. -/
def V3.add (v w : V3) : V3 := ⟨v.x + w.x, v.y + w.y, v.z + w.z⟩

/-- A polygon is its ordered vertex list (spec §3: "ordered sequence of 3D
points").  Modelled from the spec: `frads.geom.Polygon`. -/
abbrev Polygon := List V3

/-- Modelled from the spec: `Polygon.flip` reverses the vertex order,
negating the normal. -/
def pflip (p : Polygon) : Polygon := p.reverse

/-- One face of an axis-aligned bounding box: its outward normal together
with its corner vertices.  Modelled from the spec: `bounding_box` "returns
six axis-aligned faces around the union of inputs". -/
structure BFace where
  nrm : V3
  verts : List V3
deriving DecidableEq, Repr

instance : Inhabited BFace := ⟨⟨⟨0, 0, 0⟩, []⟩⟩

/-- Modelled from the spec: translating a face moves its vertices and keeps
its outward normal. -/
def BFace.move (f : BFace) (v : V3) : BFace := ⟨f.nrm, f.verts.map (fun q => q.add v)⟩

/-- Minimum of a rational list (Python `min`); 0 on the empty list, which the
Python code never reaches. -/
def minD : List ℚ → ℚ
  | [] => 0
  | q :: qs => qs.foldl min q

/-- Maximum of a rational list (Python `max`); 0 on the empty list. -/
def maxD : List ℚ → ℚ
  | [] => 0
  | q :: qs => qs.foldl max q

/-- Modelled from the spec: the area of an axis-aligned bounding-box face is
the product of its two in-plane extents. -/
def BFace.area (f : BFace) : ℚ :=
  let xs := f.verts.map V3.x
  let ys := f.verts.map V3.y
  let zs := f.verts.map V3.z
  let ex := maxD xs - minD xs
  let ey := maxD ys - minD ys
  let ez := maxD zs - minD zs
  if f.nrm.x ≠ 0 then ey * ez else if f.nrm.y ≠ 0 then ex * ez else ex * ey

/-- Modelled from the spec: `frads.geom.getbbox` — "returns six axis-aligned
faces around the union of inputs, each face independently offset outward by
`offset` along its own normal".  Face order: the face at index 0 is the
box's front (floor) face whose area is the box's XY footprint (the quantity
the rotational search in `gen_ports_from_window_ncp` minimises, per its
docstring "until the axis-aligned bounding box projected onto XY plane is
the smallest"), index 1 is the opposite cap, and indices 2–5 carry the
outward normals +X, −Y, −X, +Y in this order, matching the
`rm_pg = [xax, _yax, _xax, yax]` / `del bbox[rm_pg.index(..) + 2]`
indexing in `ncp.py`. -/
def getbbox (ps : List Polygon) (offset : ℚ) : List BFace :=
  let pts := ps.flatten
  let xs := pts.map V3.x
  let ys := pts.map V3.y
  let zs := pts.map V3.z
  let xmin := minD xs - offset
  let xmax := maxD xs + offset
  let ymin := minD ys - offset
  let ymax := maxD ys + offset
  let zmin := minD zs - offset
  let zmax := maxD zs + offset
  [ ⟨⟨0, 0, -1⟩, [⟨xmin, ymin, zmin⟩, ⟨xmax, ymin, zmin⟩, ⟨xmax, ymax, zmin⟩, ⟨xmin, ymax, zmin⟩]⟩
  , ⟨⟨0, 0, 1⟩,  [⟨xmin, ymin, zmax⟩, ⟨xmax, ymin, zmax⟩, ⟨xmax, ymax, zmax⟩, ⟨xmin, ymax, zmax⟩]⟩
  , ⟨⟨1, 0, 0⟩,  [⟨xmax, ymin, zmin⟩, ⟨xmax, ymax, zmin⟩, ⟨xmax, ymax, zmax⟩, ⟨xmax, ymin, zmax⟩]⟩
  , ⟨⟨0, -1, 0⟩, [⟨xmin, ymin, zmin⟩, ⟨xmax, ymin, zmin⟩, ⟨xmax, ymin, zmax⟩, ⟨xmin, ymin, zmax⟩]⟩
  , ⟨⟨-1, 0, 0⟩, [⟨xmin, ymin, zmin⟩, ⟨xmin, ymax, zmin⟩, ⟨xmin, ymax, zmax⟩, ⟨xmin, ymin, zmax⟩]⟩
  , ⟨⟨0, 1, 0⟩,  [⟨xmin, ymax, zmin⟩, ⟨xmax, ymax, zmin⟩, ⟨xmax, ymax, zmax⟩, ⟨xmin, ymax, zmax⟩]⟩ ]

/-- Python `list.index` restricted to lists that contain the element; on a
missing element it returns the list's length (the Python code only calls it
on members). -/
def pyIndex {α : Type} [DecidableEq α] (l : List α) (a : α) : ℕ :=
  match l with
  | [] => 0
  | x :: xs => if x = a then 0 else pyIndex xs a + 1

/-- Python `list.index` returning `none` where Python raises `ValueError`. -/
def pyIndexO {α : Type} [DecidableEq α] (l : List α) (a : α) : Option ℕ :=
  match l with
  | [] => none
  | x :: xs => if x = a then some 0 else (pyIndexO xs a).map (· + 1)

/-- `area_list.index(min(area_list))` from `ncp.py`: first index of the
minimal element. -/
def idxOfMin (l : List ℚ) : ℕ := pyIndex l (minD l)

/-- Python `round(q, 1)` (round half to even on the scaled value). -/
def pyRound1 (q : ℚ) : ℚ :=
  let t := q * 10
  let f : ℤ := ⌊t⌋
  let r := t - f
  let n : ℤ :=
    if r < 1/2 then f
    else if 1/2 < r then f + 1
    else if f % 2 = 0 then f else f + 1
  (n : ℚ) / 10

/-- `[round(i, 1) for i in v.to_list()]` from `ncp.py`, kept as a vector. -/
def pyRound1V (v : V3) : V3 := ⟨pyRound1 v.x, pyRound1 v.y, pyRound1 v.z⟩

/-- `rm_pg = [xax, _yax, _xax, yax]` from `ncp.py`
(`gen_ports_from_window_ncp`). -/
def rmPg : List V3 := [⟨1, 0, 0⟩, ⟨0, -1, 0⟩, ⟨-1, 0, 0⟩, ⟨0, 1, 0⟩]

/-- The per-degree bounding boxes of the rotational search in
`gen_ports_from_window_ncp` (`ncp.py` lines 641-649): for each integer
degree 0..89 the window and shading polygons are rotated about +Z and their
bounding box with offset 0.001 is recorded.  `rot d p` stands for the
geometry kernel's `p.rotate(zaxis, radians(d))`, which is a parameter
because exact rotation is irrational. -/
def searchBboxes (rot : ℕ → Polygon → Polygon) (wp : Polygon) (np : List Polygon) :
    List (List BFace) :=
  (List.range 90).map (fun deg => getbbox ((np.map (rot deg)) ++ [rot deg wp]) (1/1000))

/-- `area_list` of the rotational search: the area of each bounding box's
first face (`_bbox[0].area()`, `ncp.py` line 649). -/
def searchAreas (rot : ℕ → Polygon → Polygon) (wp : Polygon) (np : List Polygon) : List ℚ :=
  (searchBboxes rot wp np).map (fun b => b.headI.area)

/-- The chosen angle `deg = area_list.index(min(area_list))`
(`ncp.py` line 651). -/
def searchDeg (rot : ℕ → Polygon → Polygon) (wp : Polygon) (np : List Polygon) : ℕ :=
  idxOfMin (searchAreas rot wp np)

/-- The non-axis-aligned branch of `gen_ports_from_window_ncp`
(`ncp.py` lines 631-657): run the rotational search, take the bounding box
of the winning angle, delete the face matched (after rounding the rotated
window normal to one decimal) against `rm_pg` at offset 2, and rotate the
remaining faces back.  `nrmF` stands for the geometry kernel's unit-normal
computation, `rotF i` for rotating a box face about +Z by `i` degrees; a
failed `rm_pg.index` (Python `ValueError`) is `none`. -/
def genPortsSearch (rot : ℕ → Polygon → Polygon) (nrmF : Polygon → V3)
    (rotF : ℤ → BFace → BFace) (wp : Polygon) (np : List Polygon) :
    Option (List BFace) :=
  let d := searchDeg rot wp np
  let bbox := (searchBboxes rot wp np).getD d []
  let wnr := pyRound1V (nrmF (rot d wp))
  match pyIndexO rmPg wnr with
  | none => none
  | some i => some ((bbox.eraseIdx (i + 2)).map (rotF (-(d : ℤ))))

/-- Python `list.remove`: drop the first element equal to `a` (the callers
in `ncp.py` and `radmtx.py` only invoke it on members, so the
missing-element `ValueError` is unreachable and the list is returned
unchanged there). -/
def pyRemove {α : Type} [DecidableEq α] : List α → α → List α
  | [], _ => []
  | x :: xs, a => if x = a then xs else x :: pyRemove xs a

/-- The axis-aligned branch of `gen_ports_from_window_ncp`
(`ncp.py` lines 626-630): bounding box (offset 0) of the shading polygons
plus the window, `bbox.remove` of the first face whose reversed outward
normal equals the window normal `wn` (Python `IndexError` when there is
none is `none`), then every remaining face moved by `wn.scale(-0.1)`. -/
def genPortsAxis (wn : V3) (wp : Polygon) (np : List Polygon) : Option (List BFace) :=
  let bbox := getbbox (np ++ [wp]) 0
  match bbox.filter (fun b => b.nrm.reverse = wn) with
  | [] => none
  | b :: _ => some ((pyRemove bbox b).map (fun f => f.move (wn.scale (-(1/10)))))

/-- `gen_ports_from_window_ncp` (`ncp.py` lines 613-657).  The window's
normal `nrmF wp` is the geometry kernel's unit normal of the window polygon.
If its Y or X component has absolute value 1 the direct bounding branch
runs; otherwise the rotational search runs. -/
def gen_ports_from_window_ncp (rot : ℕ → Polygon → Polygon) (nrmF : Polygon → V3)
    (rotF : ℤ → BFace → BFace) (wp : Polygon) (np : List Polygon) :
    Option (List BFace) :=
  let wn := nrmF wp
  if |wn.y| = 1 ∨ |wn.x| = 1 then genPortsAxis wn wp np
  else genPortsSearch rot nrmF rotF wp np

/-- `frads.types.Primitive` (declared outside `src/`; its five fields are
used throughout `ncp.py`).  The geometric payload `real_arg` is kept in
parsed form: `polygon` stands for `parsers.parse_polygon(p.real_arg)`, and
`strArg` abbreviates the string-argument block. -/
structure Primitive where
  modifier : String
  ptype : String
  identifier : String
  strArg : String
  polygon : Polygon
deriving DecidableEq, Repr

instance : Inhabited Primitive := ⟨⟨"", "", "", "", []⟩⟩

/-- Modelled from the spec: `frads.utils.polygon2prim` (not under `src/`)
builds a `polygon`-typed primitive from a polygon, a modifier and an
identifier, as used by `merge_windows` and `gen_port_prims_from_window_ncp`. -/
def polygon2prim (plg : Polygon) (modifier identifier : String) : Primitive :=
  ⟨modifier, "polygon", identifier, "0", plg⟩

/-- `merge_windows` (`ncp.py` lines 660-671).  `nrmF` stands for the
geometry kernel's unit-normal computation and `hullF` for
`geom.convexhull(points, normal)` (modelled from the spec: "2D hull computed
in the plane of `normal`, lifted back to 3D"), both outside `src/`.
`len(set(normals)) > 1` is the dedup-length test; the empty input, where
Python raises `IndexError` on `normals[0]`, is a distinct error. -/
def merge_windows (nrmF : Polygon → V3) (hullF : List V3 → V3 → Polygon)
    (prims : List Primitive) : Except String Primitive :=
  let polygons := prims.map (·.polygon)
  let normals := polygons.map nrmF
  if normals.dedup.length > 1 then Except.error "Windows not co-planar"
  else
    match prims, normals with
    | p0 :: _, n0 :: _ =>
        let points := polygons.flatten
        Except.ok (polygon2prim (hullF points n0) p0.modifier p0.identifier)
    | _, _ => Except.error "IndexError"

/-! ## The matrix-generation pipeline (`gen_ncp_mtx` and its helpers) -/

/-- Python exceptions raised by the embedded code. -/
inductive PyErr where
  | nameError (name : String)
  | valueError (msg : String)
  | typeError (msg : String)
  | osError (path : String)
deriving DecidableEq, Repr

deriving instance DecidableEq for Except

/-- Modelled from the spec: the receiver produced by
`matrix.surface_as_receiver` (`frads.matrix` is not under `src/`): a staged
description holding the member primitives and the angular basis.  Accumulation
(the `+=` in `ncp_compute_back`/`ncp_compute_front`) concatenates the
descriptions, as in `radmtx.Receiver.__add__`. -/
structure MReceiver where
  desc : List Primitive
  basis : String
deriving DecidableEq, Repr

/-- Receiver accumulation at the `frads.matrix` layer. -/
def MReceiver.madd (a b : MReceiver) : MReceiver := ⟨a.desc ++ b.desc, a.basis⟩

/-- Modelled from the spec: `matrix.surface_as_receiver`. -/
def surface_as_receiver (prims : List Primitive) (basis : String) : MReceiver :=
  ⟨prims, basis⟩

/-- One `matrix.rfluxmtx` call: the simulator invocation issued for one
pass, with its sender surface, sender basis and (possibly folded) receiver. -/
structure MInvocation where
  sender : List Primitive
  senderBasis : String
  receiver : MReceiver
deriving DecidableEq, Repr

/-- The NCP `Model` dataclass (`ncp.py` lines 28-34); environment paths are
kept as strings. -/
structure Model where
  windows : List Primitive
  ports : List Primitive
  env : List String
  sbasis : String
  rbasis : String
deriving Repr

/-- `ncp_compute_back` (`ncp.py` lines 37-69): for each window, build the
port receiver and the window sender, fold the flipped-window reflection
receiver into it when `refl` is set, and issue exactly one `rfluxmtx`
invocation.  The staged output paths (`src_dict`) do not affect the
invocation list and are omitted. -/
def ncp_compute_back (model : Model) (refl : Bool) : List MInvocation :=
  model.windows.enum.map (fun iw =>
    let idx := iw.1
    let wp := iw.2
    let front_rcvr := surface_as_receiver model.ports model.rbasis
    let sndr := [wp]
    let rcvr :=
      if refl then
        let wflip := pflip wp.polygon
        let wflip_prim := polygon2prim wflip "breceiver" ("window" ++ toString idx)
        front_rcvr.madd (surface_as_receiver [wflip_prim] ("-" ++ model.rbasis))
      else front_rcvr
    ⟨sndr, model.sbasis, rcvr⟩)

/-- `ncp_compute_front` (`ncp.py` lines 72-112): one flipped-ports sender,
then for each window one invocation against the flipped-window receiver,
folding the ports reflection receiver into it when `refl` is set. -/
def ncp_compute_front (model : Model) (refl : Bool) : List MInvocation :=
  let sndr_prim := model.ports.map (fun p =>
    Primitive.mk p.modifier p.ptype p.identifier p.strArg (pflip p.polygon))
  model.windows.enum.map (fun iw =>
    let idx := iw.1
    let wp := iw.2
    let wplg := pflip wp.polygon
    let rcvr_prim := polygon2prim wplg "breceiver" ("window" ++ toString idx)
    let rcvr := surface_as_receiver [rcvr_prim] ("-" ++ model.sbasis)
    let rcvr2 :=
      if refl then rcvr.madd (surface_as_receiver model.ports model.rbasis)
      else rcvr
    ⟨sndr_prim, "-" ++ model.rbasis, rcvr2⟩)

/-- Python `str.startswith`, computed structurally on the character
lists. -/
def pyStartsWith (s pre : String) : Bool := List.isPrefixOf pre.data s.data

/-- Python slicing `s[n:]`, computed structurally on the character list. -/
def pyDrop (s : String) (n : ℕ) : String := String.mk (s.data.drop n)

/-- Python `int(s)` on a decimal string (`ValueError` on anything else is
`none`). -/
def pyToNat (s : String) : Option ℕ :=
  if s.data.isEmpty then none
  else if s.data.all Char.isDigit then
    some (s.data.foldl (fun acc c => acc * 10 + (c.toNat - 48)) 0)
  else none

/-- `math.log(sc, 2) % int(math.log(sc, 2)) == 0`: the resolution is an
exact power of two (bounded existential so that it evaluates). -/
def isPow2 (n : ℕ) : Bool := decide (∃ k, k < 32 ∧ n = 2 ^ k)

/-- The tensor-tree resolution validation of `gen_ncp_mtx`
(`ncp.py` lines 294-304): when `wrap` is set and both basis tags start with
`"sc"`, parse the resolution and require it to be an exact power of two,
raising `ValueError "Invalid tensor tree resolution."` otherwise; on
success the `klems` flag is cleared and `" -hd -ff"` is appended to the
options.  (`math.log(sc, 2) % int(..)` additionally divides by zero at
`sc = 1`; no claim touches that corner and it is modelled as passing.) -/
def tensor_tree_check (model : Model) (wrap : Bool) (opt : Option String) :
    Except PyErr (Bool × Option String) :=
  if wrap ∧ pyStartsWith model.rbasis "sc" = true ∧ pyStartsWith model.sbasis "sc" = true then
    match pyToNat (pyDrop model.rbasis 2) with
    | none => Except.error (PyErr.valueError "invalid literal for int()")
    | some sc =>
        if isPow2 sc then
          Except.ok (false, some (match opt with
            | some o => o ++ " -hd -ff"
            | none => "-hd -ff"))
        else Except.error (PyErr.valueError "Invalid tensor tree resolution.")
  else Except.ok (true, opt)

/-- `gen_ncp_mtx` (`ncp.py` lines 227-366), the pipeline entry point,
returning the list of simulator invocations it issued together with its
outcome.  After collecting the environment primitives (`all_prims`,
line 240), line 243 evaluates
`[prim.modifier for prim in ncp_prims if prim.ptype == "polygon"]`,
but the name `ncp_prims` is bound nowhere in the function, the module, or
its imports: Python raises `NameError` there on every call, before the
basis validation (lines 294-304), before any sender or receiver is
constructed and before any invocation is issued.  `unpack` stands for
`utils.unpack_primitives` (not under `src/`). -/
def gen_ncp_mtx (unpack : String → List Primitive) (model : Model) (out : String)
    (opt : Option String) (refl forw wrap solar : Bool) :
    List MInvocation × Except PyErr Unit :=
  let _all_prims := (model.env.map unpack).flatten
  ([], Except.error (PyErr.nameError "ncp_prims"))

/-! ## `radmtx.py`: Sender / Receiver objects, staging and release -/

/-- `radmtx.Receiver` (lines 116-173): staged description string
(`receiver`), path of the staged file, basis, and optional modifier-file
path. -/
structure Receiver where
  path : String
  receiver : String
  basis : String
  modifier : Option String
deriving DecidableEq, Repr

instance : Inhabited Receiver := ⟨⟨"", "", "", none⟩⟩

/-- `radmtx.Receiver.__add__` (lines 131-133): `self.receiver +=
other.receiver; return self`.  As a value, the returned receiver is the
left receiver with the concatenated description. -/
def Receiver.add (a b : Receiver) : Receiver :=
  { a with receiver := a.receiver ++ b.receiver }

/-- The member-primitive rewriting performed by `radmtx.prepare_surface`
(lines 176-209): with `src_mod = "rflx" + prims[0]['modifier']` and
`modifiers = [p['modifier'] for p in prims]` captured before any mutation,
every primitive whose identifier occurs in `modifiers` has its identifier
set to `"discarded"`, and then every primitive's modifier is set to
`src_mod`. -/
def prepare_surface_prims (prims : List Primitive) : List Primitive :=
  let src_mod : String := "rflx" ++ prims.headI.modifier
  let modifiers : List String := prims.map (·.modifier)
  (prims.map (fun p =>
      if p.identifier ∈ modifiers then { p with identifier := "discarded" } else p)).map
    (fun p => { p with modifier := src_mod })

/-- `radmtx.Sender` (lines 34-113), reduced to the fields `gen_mtx` reads. -/
structure Sender where
  form : String
  path : String
  xres : Option ℕ
  yres : Option ℕ
  linecnt : Option ℕ
deriving DecidableEq, Repr

/-- `os.remove(p)`: drops `p` from the staged-file list, raising `OSError`
(as Python does) when the path does not exist. -/
def os_remove (fs : List String) (p : String) : Except PyErr (List String) :=
  if p ∈ fs then Except.ok (pyRemove fs p) else Except.error (PyErr.osError p)

/-- `radmtx.Sender.remove` (lines 112-113). -/
def Sender.remove (s : Sender) (fs : List String) : Except PyErr (List String) :=
  os_remove fs s.path

/-- `radmtx.Receiver.remove` (lines 170-173): remove the modifier file when
present, then the staged description file. -/
def Receiver.remove (r : Receiver) (fs : List String) : Except PyErr (List String) := do
  let fs1 ← match r.modifier with
    | some m => os_remove fs m
    | none => Except.ok fs
  os_remove fs1 r.path

/-- The command construction of `radmtx.gen_mtx` (lines 212-223).  For a
point-grid sender with `'c'` occurring in the option string, Python
evaluates `opt['c']` on a `str` and raises `TypeError` before the
invocation; every other form produces a command string. -/
def gen_mtx_cmd (sender : Sender) (receiver : Receiver) (env : List String)
    (out : String) (opt : String) : Except PyErr String :=
  let envs := String.intercalate " " env
  if sender.form = "srf" then
    Except.ok ("rfluxmtx " ++ opt ++ " " ++ sender.path ++ " " ++ receiver.path
      ++ " " ++ envs ++ " > " ++ out)
  else
    let base := "rfluxmtx < " ++ sender.path ++ " " ++ opt ++ " "
    if sender.form = "pts" then
      if opt.contains 'c' then
        Except.error (PyErr.typeError "string indices must be integers")
      else
        Except.ok (base ++ "-I+ -faf -y " ++ toString (sender.linecnt.getD 0)
          ++ " -o " ++ out ++ " - " ++ receiver.path ++ " " ++ envs)
    else if sender.form = "vu" then
      Except.ok (base ++ "-ffc -x " ++ toString (sender.xres.getD 0)
        ++ " -y " ++ toString (sender.yres.getD 0) ++ " -ld- "
        ++ "-o " ++ out ++ "/%04d.hdr - " ++ receiver.path ++ " " ++ envs)
    else
      Except.ok (base ++ "-o " ++ out ++ " - " ++ receiver.path ++ " " ++ envs)

/-- `radmtx.gen_mtx` (lines 211-227): build the command, run it with
`sp.run(cmd, shell=True)` — which never raises on a non-zero exit status
(`exitCode` is the external process result and is not inspected) — then
unconditionally release the sender's staged file and the receiver's staged
files. -/
def gen_mtx (fs : List String) (sender : Sender) (receiver : Receiver)
    (env : List String) (out : String) (opt : String) (exitCode : Int) :
    Except PyErr (List String × Int) := do
  let _cmd ← gen_mtx_cmd sender receiver env out opt
  let fs1 ← sender.remove fs
  let fs2 ← receiver.remove fs1
  Except.ok (fs2, exitCode)

/-! ## Object-identity model for `Receiver.__add__` (frame effects) -/

/-- A heap of receiver objects (references are naturals) together with the
staged files on disk (path ↦ contents). -/
structure RStore where
  objs : ℕ → Receiver
  files : List (String × String)

/-- `radmtx.Receiver.__add__` as a mutation: `A + B` reads both receivers,
overwrites `A`'s in-memory `receiver` field with the concatenation, writes
nothing to disk, and returns the reference `A` itself. -/
def receiver_add_stateful (σ : RStore) (a b : ℕ) : RStore × ℕ :=
  let ra := σ.objs a
  let rb := σ.objs b
  ({ σ with objs := Function.update σ.objs a { ra with receiver := ra.receiver ++ rb.receiver } }, a)

/-! ## Concrete fixtures used by the closed theorems -/

/-- Identity instantiation of the rotation parameter. -/
def rotId : ℕ → Polygon → Polygon := fun _ p => p

/-- Identity instantiation of the face-rotation parameter. -/
def rotFId : ℤ → BFace → BFace := fun _ f => f

/-- Constant normal function. -/
def constV3 (v : V3) : Polygon → V3 := fun _ => v

/-- A unit square in the XY plane. -/
def unitSquareXY : Polygon := [⟨0, 0, 0⟩, ⟨1, 0, 0⟩, ⟨1, 1, 0⟩, ⟨0, 1, 0⟩]

/-- A unit square in the XZ plane (a window facing −Y). -/
def unitSquareXZ : Polygon := [⟨0, 0, 0⟩, ⟨1, 0, 0⟩, ⟨1, 0, 1⟩, ⟨0, 0, 1⟩]

/-- Staged files for the concrete `gen_mtx` run: the sender file, the
receiver file and the receiver's modifier file. -/
def c8fs : List String := ["s", "r", "m"]

/-- A concrete surface sender staged at `"s"`. -/
def c8sender : Sender := ⟨"srf", "s", none, none, none⟩

/-- A concrete receiver staged at `"r"` with modifier file `"m"`. -/
def c8receiver : Receiver := ⟨"r", "desc", "kf", some "m"⟩

/-- A concrete two-object store: receiver `A` at reference 0, receiver `B`
at reference 1, each with its staged file on disk. -/
def c10store : RStore :=
  { objs := fun n => if n = 0 then ⟨"p0", "A", "kf", none⟩ else ⟨"p1", "B", "kf", none⟩
  , files := [("p0", "A"), ("p1", "B")] }

/-- Two member primitives sharing the modifier `"m"` and the duplicate
identifier `"a"`. -/
def c7prims : List Primitive :=
  [⟨"m", "polygon", "a", "0", []⟩, ⟨"m", "polygon", "a", "0", []⟩]

/-- A one-window model whose tensor-tree resolution tag `"sc6"` is not a
power of two. -/
def sc6Model : Model :=
  { windows := [polygon2prim unitSquareXZ "glass" "window0"]
  , ports := [polygon2prim unitSquareXY "port" "portf1"]
  , env := []
  , sbasis := "sc6"
  , rbasis := "sc6" }

/-- A one-window model with the valid tensor-tree basis `"sc4"` (the
end-to-end scenario of spec §8). -/
def sc4Model : Model :=
  { windows := [polygon2prim unitSquareXZ "glass" "window0"]
  , ports := [polygon2prim unitSquareXY "port" "portf1"]
  , env := []
  , sbasis := "sc4"
  , rbasis := "sc4" }

/-! ## Helper lemmas: list minima, first indices, `dedup`, `pyRemove` -/

theorem foldl_min_le_init (xs : List ℚ) (x : ℚ) : xs.foldl min x ≤ x := by
  induction xs generalizing x with
  | nil => simp
  | cons y ys ih =>
      calc ys.foldl min (min x y) ≤ min x y := ih _
        _ ≤ x := min_le_left _ _

theorem foldl_min_le_mem (xs : List ℚ) (x : ℚ) {a : ℚ} (h : a ∈ xs) :
    xs.foldl min x ≤ a := by
  induction xs generalizing x with
  | nil => cases h
  | cons y ys ih =>
      rcases List.mem_cons.mp h with rfl | hmem
      · calc ys.foldl min (min x a) ≤ min x a := foldl_min_le_init _ _
          _ ≤ a := min_le_right _ _
      · exact ih (min x y) hmem

theorem foldl_min_mem (xs : List ℚ) (x : ℚ) :
    xs.foldl min x = x ∨ xs.foldl min x ∈ xs := by
  induction xs generalizing x with
  | nil => exact Or.inl rfl
  | cons y ys ih =>
      rcases ih (min x y) with h | h
      · rcases min_choice x y with hm | hm
        · exact Or.inl (by rw [List.foldl_cons, h, hm])
        · exact Or.inr (by rw [List.foldl_cons, h, hm]; exact List.mem_cons_self _ _)
      · exact Or.inr (List.mem_cons_of_mem _ h)

theorem minD_mem {l : List ℚ} (h : l ≠ []) : minD l ∈ l := by
  match l with
  | [] => exact absurd rfl h
  | q :: qs =>
      rcases foldl_min_mem qs q with he | he
      · rw [minD, he]; exact List.mem_cons_self _ _
      · exact List.mem_cons_of_mem _ (by rw [minD]; exact he)

theorem minD_le {l : List ℚ} {a : ℚ} (h : a ∈ l) : minD l ≤ a := by
  match l with
  | [] => cases h
  | q :: qs =>
      rcases List.mem_cons.mp h with rfl | hmem
      · exact foldl_min_le_init _ _
      · exact foldl_min_le_mem _ _ hmem

theorem pyIndex_lt_length {α : Type} [DecidableEq α] {l : List α} {a : α}
    (h : a ∈ l) : pyIndex l a < l.length := by
  induction l with
  | nil => cases h
  | cons x xs ih =>
      by_cases hx : x = a
      · simp [pyIndex, hx]
      · rcases List.mem_cons.mp h with rfl | hmem
        · exact absurd rfl hx
        · simpa [pyIndex, hx] using Nat.succ_lt_succ (ih hmem)

theorem getD_pyIndex {α : Type} [DecidableEq α] {l : List α} {a : α}
    (h : a ∈ l) (d : α) : l.getD (pyIndex l a) d = a := by
  induction l with
  | nil => cases h
  | cons x xs ih =>
      by_cases hx : x = a
      · simp [pyIndex, hx]
      · rcases List.mem_cons.mp h with rfl | hmem
        · exact absurd rfl hx
        · simpa [pyIndex, hx] using ih hmem

theorem pyIndex_first {α : Type} [DecidableEq α] {l : List α} {a : α} (d : α)
    {j : ℕ} (hj : j < pyIndex l a) : l.getD j d ≠ a := by
  induction l generalizing j with
  | nil => simp [pyIndex] at hj
  | cons x xs ih =>
      by_cases hx : x = a
      · simp [pyIndex, hx] at hj
      · cases j with
        | zero => simpa using hx
        | succ k =>
            have hk : k < pyIndex xs a := by
              have := hj
              simp only [pyIndex, hx, if_false] at this
              omega
            simpa using ih hk

theorem dedup_length_le_one_iff {α : Type} [DecidableEq α] (l : List α) :
    l.dedup.length ≤ 1 ↔ ∀ a ∈ l, ∀ b ∈ l, a = b := by
  constructor
  · intro h a ha b hb
    have ha2 : a ∈ l.dedup := List.mem_dedup.mpr ha
    have hb2 : b ∈ l.dedup := List.mem_dedup.mpr hb
    rcases e : l.dedup with _ | ⟨c, t⟩
    · rw [e] at ha2; cases ha2
    · rw [e] at h ha2 hb2
      have ht : t = [] := by
        cases t with
        | nil => rfl
        | cons u us => simp at h
      subst ht
      have h1 : a = c := by simpa using ha2
      have h2 : b = c := by simpa using hb2
      rw [h1, h2]
  · intro h
    by_contra hlen
    push_neg at hlen
    rcases e : l.dedup with _ | ⟨c1, t⟩
    · rw [e] at hlen; simp at hlen
    · rcases t with _ | ⟨c2, t2⟩
      · rw [e] at hlen; simp at hlen
      · have hn : l.dedup.Nodup := l.nodup_dedup
        rw [e] at hn
        have hne : c1 ≠ c2 := by
          intro hc
          exact (List.nodup_cons.mp hn).1 (hc ▸ List.mem_cons_self _ _)
        have hc1 : c1 ∈ l := List.mem_dedup.mp (e ▸ List.mem_cons_self _ _)
        have hc2 : c2 ∈ l :=
          List.mem_dedup.mp (e ▸ List.mem_cons_of_mem _ (List.mem_cons_self _ _))
        exact hne (h c1 hc1 c2 hc2)

theorem pyRemove_subset {α : Type} [DecidableEq α] {l : List α} {b a : α}
    (h : a ∈ pyRemove l b) : a ∈ l := by
  induction l with
  | nil => cases h
  | cons x xs ih =>
      by_cases hx : x = b
      · rw [pyRemove, if_pos hx] at h
        exact List.mem_cons_of_mem _ h
      · rw [pyRemove, if_neg hx] at h
        rcases List.mem_cons.mp h with rfl | hmem
        · exact List.mem_cons_self _ _
        · exact List.mem_cons_of_mem _ (ih hmem)

theorem mem_pyRemove_of_ne {α : Type} [DecidableEq α] {l : List α} {b a : α}
    (hne : a ≠ b) (h : a ∈ l) : a ∈ pyRemove l b := by
  induction l with
  | nil => cases h
  | cons x xs ih =>
      by_cases hx : x = b
      · rw [pyRemove, if_pos hx]
        rcases List.mem_cons.mp h with rfl | hmem
        · exact absurd hx hne
        · exact hmem
      · rw [pyRemove, if_neg hx]
        rcases List.mem_cons.mp h with rfl | hmem
        · exact List.mem_cons_self _ _
        · exact List.mem_cons_of_mem _ (ih hmem)

theorem not_mem_pyRemove_self {α : Type} [DecidableEq α] {l : List α} {b : α}
    (h : l.Nodup) : b ∉ pyRemove l b := by
  induction l with
  | nil => simp [pyRemove]
  | cons x xs ih =>
      by_cases hx : x = b
      · rw [pyRemove, if_pos hx]
        subst hx
        exact (List.nodup_cons.mp h).1
      · rw [pyRemove, if_neg hx]
        intro hmem
        rcases List.mem_cons.mp hmem with rfl | hmem2
        · exact hx rfl
        · exact ih (List.nodup_cons.mp h).2 hmem2

theorem pyRemove_nodup {α : Type} [DecidableEq α] {l : List α} (b : α)
    (h : l.Nodup) : (pyRemove l b).Nodup := by
  induction l with
  | nil => simp [pyRemove]
  | cons x xs ih =>
      by_cases hx : x = b
      · rw [pyRemove, if_pos hx]
        exact (List.nodup_cons.mp h).2
      · rw [pyRemove, if_neg hx]
        refine List.nodup_cons.mpr ⟨?_, ih (List.nodup_cons.mp h).2⟩
        intro hmem
        exact (List.nodup_cons.mp h).1 (pyRemove_subset hmem)

theorem pyRemove_length {α : Type} [DecidableEq α] {l : List α} {b : α}
    (h : b ∈ l) : (pyRemove l b).length + 1 = l.length := by
  induction l with
  | nil => cases h
  | cons x xs ih =>
      by_cases hx : x = b
      · simp [pyRemove, hx]
      · rcases List.mem_cons.mp h with rfl | hmem
        · exact absurd rfl hx
        · have := ih hmem
          simp only [pyRemove, if_neg hx, List.length_cons]
          omega

/-! ## Shape of the bounding box and the axis-aligned branch -/

theorem getbbox_shape (ps : List Polygon) (offset : ℚ) :
    ∃ x1 x2 y1 y2 z1 z2 : ℚ, getbbox ps offset =
      [ ⟨⟨0, 0, -1⟩, [⟨x1, y1, z1⟩, ⟨x2, y1, z1⟩, ⟨x2, y2, z1⟩, ⟨x1, y2, z1⟩]⟩
      , ⟨⟨0, 0, 1⟩,  [⟨x1, y1, z2⟩, ⟨x2, y1, z2⟩, ⟨x2, y2, z2⟩, ⟨x1, y2, z2⟩]⟩
      , ⟨⟨1, 0, 0⟩,  [⟨x2, y1, z1⟩, ⟨x2, y2, z1⟩, ⟨x2, y2, z2⟩, ⟨x2, y1, z2⟩]⟩
      , ⟨⟨0, -1, 0⟩, [⟨x1, y1, z1⟩, ⟨x2, y1, z1⟩, ⟨x2, y1, z2⟩, ⟨x1, y1, z2⟩]⟩
      , ⟨⟨-1, 0, 0⟩, [⟨x1, y1, z1⟩, ⟨x1, y2, z1⟩, ⟨x1, y2, z2⟩, ⟨x1, y1, z2⟩]⟩
      , ⟨⟨0, 1, 0⟩,  [⟨x1, y2, z1⟩, ⟨x2, y2, z1⟩, ⟨x2, y2, z2⟩, ⟨x1, y2, z2⟩]⟩ ] :=
  ⟨_, _, _, _, _, _, rfl⟩

/-- A unit vector whose X or Y component has absolute value 1 is one of the
four horizontal axis directions. -/
theorem axis_cases {wx wy wz : ℚ} (h1 : |wy| = 1 ∨ |wx| = 1)
    (h2 : wx ^ 2 + wy ^ 2 + wz ^ 2 = 1) :
    (wx = 0 ∧ wy = 1 ∧ wz = 0) ∨ (wx = 0 ∧ wy = -1 ∧ wz = 0) ∨
      (wx = 1 ∧ wy = 0 ∧ wz = 0) ∨ (wx = -1 ∧ wy = 0 ∧ wz = 0) := by
  rcases h1 with hy | hx
  · rcases (abs_eq (by norm_num : (0:ℚ) ≤ 1)).mp hy with hy1 | hy1
    · subst hy1
      refine Or.inl ⟨?_, rfl, ?_⟩ <;> nlinarith [sq_nonneg wx, sq_nonneg wz]
    · subst hy1
      refine Or.inr (Or.inl ⟨?_, rfl, ?_⟩) <;> nlinarith [sq_nonneg wx, sq_nonneg wz]
  · rcases (abs_eq (by norm_num : (0:ℚ) ≤ 1)).mp hx with hx1 | hx1
    · subst hx1
      refine Or.inr (Or.inr (Or.inl ⟨rfl, ?_, ?_⟩)) <;>
        nlinarith [sq_nonneg wy, sq_nonneg wz]
    · subst hx1
      refine Or.inr (Or.inr (Or.inr ⟨rfl, ?_, ?_⟩)) <;>
        nlinarith [sq_nonneg wy, sq_nonneg wz]

/-- Behaviour of the axis-aligned bounding branch for a unit horizontal
axis-aligned window normal: exactly one bounding-box face matches the
reversed normal, it is removed, and the five remaining faces are moved by
`wn.scale(-0.1)`. -/
theorem genPortsAxis_spec (wn : V3) (wp : Polygon) (np : List Polygon)
    (h1 : |wn.y| = 1 ∨ |wn.x| = 1)
    (h2 : wn.x ^ 2 + wn.y ^ 2 + wn.z ^ 2 = 1) :
    ∃ res, genPortsAxis wn wp np = some res ∧
      res.length = 5 ∧
      (∀ f ∈ res, f.nrm ≠ wn.reverse) ∧
      ∃ fl, fl ∈ getbbox (np ++ [wp]) 0 ∧ fl.nrm = wn.reverse ∧
        res = (pyRemove (getbbox (np ++ [wp]) 0) fl).map
          (fun f => f.move (wn.scale (-(1/10)))) := by
  obtain ⟨wx, wy, wz⟩ := wn
  obtain ⟨x1, x2, y1, y2, z1, z2, hbb⟩ := getbbox_shape (np ++ [wp]) 0
  rcases axis_cases h1 h2 with ⟨rfl, rfl, rfl⟩ | ⟨rfl, rfl, rfl⟩ |
      ⟨rfl, rfl, rfl⟩ | ⟨rfl, rfl, rfl⟩ <;>
    · simp only [genPortsAxis, hbb]
      norm_num [List.filter_cons, V3.reverse, V3.mk.injEq, pyRemove, BFace.mk.injEq,
        BFace.move, V3.scale]

theorem getD_map_range {β : Type} (f : ℕ → β) {n j : ℕ} (hj : j < n) (d : β) :
    ((List.range n).map f).getD j d = f j := by
  rw [List.getD_eq_getElem _ _ (by simpa using hj)]
  simp

/-- **C1.**  For a window polygon whose (unit) normal is not axis-aligned,
`gen_ports_from_window_ncp` takes the rotational-search branch, whose area
list has one entry per integer degree 0..89 — the area of the first face of
the bounding box (offset 0.001) of the rotated window and shading polygons —
and the selected angle attains the minimal entry and is the smallest angle
doing so. -/
theorem c1_rotational_search_minimizes (rot : ℕ → Polygon → Polygon)
    (nrmF : Polygon → V3) (rotF : ℤ → BFace → BFace) (wp : Polygon) (np : List Polygon)
    (h : ¬(|(nrmF wp).y| = 1 ∨ |(nrmF wp).x| = 1)) :
    gen_ports_from_window_ncp rot nrmF rotF wp np = genPortsSearch rot nrmF rotF wp np ∧
    (searchAreas rot wp np).length = 90 ∧
    (∀ j, j < 90 → (searchAreas rot wp np).getD j 0 =
      ((getbbox ((np.map (rot j)) ++ [rot j wp]) (1/1000)).headI).area) ∧
    searchDeg rot wp np < 90 ∧
    (∀ j, j < 90 → (searchAreas rot wp np).getD (searchDeg rot wp np) 0 ≤
      (searchAreas rot wp np).getD j 0) ∧
    (∀ j, j < searchDeg rot wp np → (searchAreas rot wp np).getD (searchDeg rot wp np) 0 <
      (searchAreas rot wp np).getD j 0) := by
  have harea : searchAreas rot wp np = (List.range 90).map
      (fun deg => ((getbbox ((np.map (rot deg)) ++ [rot deg wp]) (1/1000)).headI).area) := by
    simp [searchAreas, searchBboxes, List.map_map]
  have hlen : (searchAreas rot wp np).length = 90 := by rw [harea]; simp
  have hne : searchAreas rot wp np ≠ [] := by
    intro he
    rw [he] at hlen
    simp at hlen
  have hmem : minD (searchAreas rot wp np) ∈ searchAreas rot wp np := minD_mem hne
  have hidx : searchDeg rot wp np < 90 := by
    have := pyIndex_lt_length hmem
    rwa [hlen] at this
  have hval : (searchAreas rot wp np).getD (searchDeg rot wp np) 0 =
      minD (searchAreas rot wp np) := getD_pyIndex hmem 0
  refine ⟨?_, hlen, ?_, hidx, ?_, ?_⟩
  · simp only [gen_ports_from_window_ncp]
    rw [if_neg h]
  · intro j hj
    rw [harea, getD_map_range _ hj]
  · intro j hj
    rw [hval]
    refine minD_le ?_
    rw [List.getD_eq_getElem _ _ (by rw [hlen]; exact hj)]
    exact List.getElem_mem _
  · intro j hj
    have hjlt : j < 90 := lt_trans hj hidx
    have hne2 : (searchAreas rot wp np).getD j 0 ≠ minD (searchAreas rot wp np) :=
      pyIndex_first 0 hj
    have hle : minD (searchAreas rot wp np) ≤ (searchAreas rot wp np).getD j 0 := by
      refine minD_le ?_
      rw [List.getD_eq_getElem _ _ (by rw [hlen]; exact hjlt)]
      exact List.getElem_mem _
    rw [hval]
    exact lt_of_le_of_ne hle (fun hq => hne2 hq.symm)

/-- Witness for C1 at a concrete non-axis-aligned normal. -/
theorem c1_witness :
    (¬(|(constV3 ⟨0, 0, 1⟩ unitSquareXY).y| = 1 ∨ |(constV3 ⟨0, 0, 1⟩ unitSquareXY).x| = 1)) ∧
    (gen_ports_from_window_ncp rotId (constV3 ⟨0, 0, 1⟩) rotFId unitSquareXY [] =
        genPortsSearch rotId (constV3 ⟨0, 0, 1⟩) rotFId unitSquareXY [] ∧
      (searchAreas rotId unitSquareXY []).length = 90 ∧
      (∀ j, j < 90 → (searchAreas rotId unitSquareXY []).getD j 0 =
        ((getbbox (([].map (rotId j)) ++ [rotId j unitSquareXY]) (1/1000)).headI).area) ∧
      searchDeg rotId unitSquareXY [] < 90 ∧
      (∀ j, j < 90 → (searchAreas rotId unitSquareXY []).getD (searchDeg rotId unitSquareXY []) 0 ≤
        (searchAreas rotId unitSquareXY []).getD j 0) ∧
      (∀ j, j < searchDeg rotId unitSquareXY [] →
        (searchAreas rotId unitSquareXY []).getD (searchDeg rotId unitSquareXY []) 0 <
        (searchAreas rotId unitSquareXY []).getD j 0)) :=
  ⟨by norm_num [constV3], c1_rotational_search_minimizes rotId (constV3 ⟨0, 0, 1⟩) rotFId
    unitSquareXY [] (by norm_num [constV3])⟩

/-- **C2.**  For a window whose (unit) normal has a unit-magnitude X or Y
component, `gen_ports_from_window_ncp` skips the rotational search (its
result does not depend on the rotation parameters) and returns exactly five
faces: the offset-0 bounding box of the shading polygons plus the window,
minus the face whose outward normal is the reverse of the window normal,
each remaining face moved by `wn.scale(-0.1)`; no returned face carries the
removed (window-flush) outward normal. -/
theorem c2_axis_aligned_skips_search (rot : ℕ → Polygon → Polygon)
    (nrmF : Polygon → V3) (rotF : ℤ → BFace → BFace) (wp : Polygon) (np : List Polygon)
    (h1 : |(nrmF wp).y| = 1 ∨ |(nrmF wp).x| = 1)
    (h2 : (nrmF wp).x ^ 2 + (nrmF wp).y ^ 2 + (nrmF wp).z ^ 2 = 1) :
    (∀ rot2 rotF2, gen_ports_from_window_ncp rot2 nrmF rotF2 wp np =
      gen_ports_from_window_ncp rot nrmF rotF wp np) ∧
    ∃ res, gen_ports_from_window_ncp rot nrmF rotF wp np = some res ∧
      res.length = 5 ∧
      (∀ f ∈ res, f.nrm ≠ (nrmF wp).reverse) ∧
      ∃ fl, fl ∈ getbbox (np ++ [wp]) 0 ∧ fl.nrm = (nrmF wp).reverse ∧
        res = (pyRemove (getbbox (np ++ [wp]) 0) fl).map
          (fun f => f.move ((nrmF wp).scale (-(1/10)))) := by
  have hax : ∀ (rot2 : ℕ → Polygon → Polygon) (rotF2 : ℤ → BFace → BFace),
      gen_ports_from_window_ncp rot2 nrmF rotF2 wp np = genPortsAxis (nrmF wp) wp np := by
    intro rot2 rotF2
    simp only [gen_ports_from_window_ncp]
    rw [if_pos h1]
  refine ⟨fun rot2 rotF2 => by rw [hax rot2 rotF2, hax rot rotF], ?_⟩
  rw [hax rot rotF]
  exact genPortsAxis_spec (nrmF wp) wp np h1 h2

/-- Witness for C2 at a concrete axis-aligned normal `(0, 1, 0)`. -/
theorem c2_witness :
    (|(constV3 ⟨0, 1, 0⟩ unitSquareXZ).y| = 1 ∨ |(constV3 ⟨0, 1, 0⟩ unitSquareXZ).x| = 1) ∧
    ((constV3 ⟨0, 1, 0⟩ unitSquareXZ).x ^ 2 + (constV3 ⟨0, 1, 0⟩ unitSquareXZ).y ^ 2 +
      (constV3 ⟨0, 1, 0⟩ unitSquareXZ).z ^ 2 = 1) ∧
    ((∀ rot2 rotF2, gen_ports_from_window_ncp rot2 (constV3 ⟨0, 1, 0⟩) rotF2 unitSquareXZ [] =
        gen_ports_from_window_ncp rotId (constV3 ⟨0, 1, 0⟩) rotFId unitSquareXZ []) ∧
      ∃ res, gen_ports_from_window_ncp rotId (constV3 ⟨0, 1, 0⟩) rotFId unitSquareXZ [] =
          some res ∧
        res.length = 5 ∧
        (∀ f ∈ res, f.nrm ≠ (constV3 ⟨0, 1, 0⟩ unitSquareXZ).reverse) ∧
        ∃ fl, fl ∈ getbbox ([] ++ [unitSquareXZ]) 0 ∧
          fl.nrm = (constV3 ⟨0, 1, 0⟩ unitSquareXZ).reverse ∧
          res = (pyRemove (getbbox ([] ++ [unitSquareXZ]) 0) fl).map
            (fun f => f.move ((constV3 ⟨0, 1, 0⟩ unitSquareXZ).scale (-(1/10))))) :=
  ⟨by norm_num [constV3], by norm_num [constV3],
    c2_axis_aligned_skips_search rotId (constV3 ⟨0, 1, 0⟩) rotFId unitSquareXZ []
      (by norm_num [constV3]) (by norm_num [constV3])⟩

/-- **C3.**  For a non-empty window list, `merge_windows` fails with the
geometry error if and only if the window polygons have more than one
distinct normal value; with a single shared normal it returns exactly one
primitive whose polygon is the convex hull (in the shared plane) of the
pooled vertices, so every vertex of the result lies among that hull's
vertices. -/
theorem c3_merge_windows (nrmF : Polygon → V3) (hullF : List V3 → V3 → Polygon)
    (prims : List Primitive) (h : prims ≠ []) :
    ((∃ e, merge_windows nrmF hullF prims = Except.error e) ↔
      ∃ a ∈ prims.map (fun p => nrmF p.polygon),
        ∃ b ∈ prims.map (fun p => nrmF p.polygon), a ≠ b) ∧
    ((∀ a ∈ prims.map (fun p => nrmF p.polygon),
        ∀ b ∈ prims.map (fun p => nrmF p.polygon), a = b) →
      ∃ q, merge_windows nrmF hullF prims = Except.ok q ∧
        q.polygon = hullF ((prims.map (·.polygon)).flatten) (nrmF prims.headI.polygon) ∧
        q.modifier = prims.headI.modifier ∧
        q.identifier = prims.headI.identifier ∧
        ∀ v ∈ q.polygon,
          v ∈ hullF ((prims.map (·.polygon)).flatten) (nrmF prims.headI.polygon)) := by
  obtain ⟨p0, rest, rfl⟩ : ∃ p0 rest, prims = p0 :: rest := by
    cases prims with
    | nil => exact absurd rfl h
    | cons a l => exact ⟨a, l, rfl⟩
  have hmm : ((p0 :: rest).map (·.polygon)).map nrmF =
      (p0 :: rest).map (fun p => nrmF p.polygon) := by
    rw [List.map_map]
    rfl
  have key : (((p0 :: rest).map (·.polygon)).map nrmF).dedup.length > 1 ↔
      ∃ a ∈ (p0 :: rest).map (fun p => nrmF p.polygon),
        ∃ b ∈ (p0 :: rest).map (fun p => nrmF p.polygon), a ≠ b := by
    rw [hmm]
    constructor
    · intro hgt
      by_contra hno
      push_neg at hno
      have hle := (dedup_length_le_one_iff
        ((p0 :: rest).map (fun p => nrmF p.polygon))).mpr hno
      omega
    · rintro ⟨a, ha, b, hb, hab⟩
      by_contra hle
      push_neg at hle
      exact hab ((dedup_length_le_one_iff _).mp (by omega) a ha b hb)
  by_cases hgt : (((p0 :: rest).map (·.polygon)).map nrmF).dedup.length > 1
  · have hmerge : merge_windows nrmF hullF (p0 :: rest) =
        Except.error "Windows not co-planar" := by
      simp only [merge_windows]
      rw [if_pos hgt]
    refine ⟨⟨fun _ => key.mp hgt, fun _ => ⟨_, hmerge⟩⟩, fun hall => ?_⟩
    exact absurd hgt (by
      rw [hmm]
      have := (dedup_length_le_one_iff
        ((p0 :: rest).map (fun p => nrmF p.polygon))).mpr hall
      omega)
  · have hmerge : merge_windows nrmF hullF (p0 :: rest) =
        Except.ok (polygon2prim
          (hullF (((p0 :: rest).map (·.polygon)).flatten) (nrmF p0.polygon))
          p0.modifier p0.identifier) := by
      simp only [merge_windows]
      rw [if_neg hgt]
      rfl
    refine ⟨⟨?_, fun hex => ?_⟩, fun hall => ?_⟩
    · rintro ⟨e, he⟩
      rw [hmerge] at he
      cases he
    · exact absurd (key.mpr hex) hgt
    · refine ⟨_, hmerge, rfl, rfl, rfl, fun v hv => ?_⟩
      simpa [polygon2prim] using hv

/-- Witness for C3 on a singleton window list. -/
theorem c3_witness :
    ([polygon2prim unitSquareXZ "glass" "window0"] ≠ ([] : List Primitive)) ∧
    (((∃ e, merge_windows (constV3 ⟨0, 1, 0⟩) (fun pts _ => pts)
          [polygon2prim unitSquareXZ "glass" "window0"] = Except.error e) ↔
        ∃ a ∈ [polygon2prim unitSquareXZ "glass" "window0"].map
            (fun p => constV3 ⟨0, 1, 0⟩ p.polygon),
          ∃ b ∈ [polygon2prim unitSquareXZ "glass" "window0"].map
            (fun p => constV3 ⟨0, 1, 0⟩ p.polygon), a ≠ b) ∧
      ((∀ a ∈ [polygon2prim unitSquareXZ "glass" "window0"].map
            (fun p => constV3 ⟨0, 1, 0⟩ p.polygon),
          ∀ b ∈ [polygon2prim unitSquareXZ "glass" "window0"].map
            (fun p => constV3 ⟨0, 1, 0⟩ p.polygon), a = b) →
        ∃ q, merge_windows (constV3 ⟨0, 1, 0⟩) (fun pts _ => pts)
            [polygon2prim unitSquareXZ "glass" "window0"] = Except.ok q ∧
          q.polygon = (fun (pts : List V3) (_ : V3) => pts)
            (([polygon2prim unitSquareXZ "glass" "window0"].map (·.polygon)).flatten)
            (constV3 ⟨0, 1, 0⟩
              ([polygon2prim unitSquareXZ "glass" "window0"].headI.polygon)) ∧
          q.modifier = [polygon2prim unitSquareXZ "glass" "window0"].headI.modifier ∧
          q.identifier = [polygon2prim unitSquareXZ "glass" "window0"].headI.identifier ∧
          ∀ v ∈ q.polygon, v ∈ (fun (pts : List V3) (_ : V3) => pts)
            (([polygon2prim unitSquareXZ "glass" "window0"].map (·.polygon)).flatten)
            (constV3 ⟨0, 1, 0⟩
              ([polygon2prim unitSquareXZ "glass" "window0"].headI.polygon)))) :=
  ⟨by simp, c3_merge_windows (constV3 ⟨0, 1, 0⟩) (fun pts _ => pts)
    [polygon2prim unitSquareXZ "glass" "window0"] (by simp)⟩

/-- **C4 (code bug).**  With the sc6 tensor-tree model and `wrap = true`,
`gen_ncp_mtx` does not raise `ValueError "Invalid tensor tree resolution."`:
it issues no invocation and dies with the unbound-name error on
`ncp_prims` (line 243) before ever reaching the resolution check, while the
check itself (lines 294-300), evaluated in isolation, does reject the
resolution exactly as the claim states. -/
theorem c4_resolution_check_preempted :
    gen_ncp_mtx (fun _ => []) sc6Model "out.xml" none false false true false =
      ([], Except.error (PyErr.nameError "ncp_prims")) ∧
    tensor_tree_check sc6Model true none =
      Except.error (PyErr.valueError "Invalid tensor tree resolution.") :=
  ⟨rfl, by decide⟩

/-- **C5 (code bug).**  The pipeline entry point issues zero simulator
invocations on the one-window model (it dies on the unbound name
`ncp_prims`), against the claimed one invocation per window; the
per-window invocation counting the claim describes does hold of the pass
functions themselves: `ncp_compute_back` issues exactly one invocation per
window whether or not reflection is enabled (the reflection receiver is
folded into the same invocation), and `ncp_compute_front` — the forward
pass — adds exactly one more per window. -/
theorem c5_invocation_count :
    gen_ncp_mtx (fun _ => []) sc4Model "out.xml" none false false true false =
      ([], Except.error (PyErr.nameError "ncp_prims")) ∧
    (ncp_compute_back sc4Model false).length = sc4Model.windows.length ∧
    (ncp_compute_back sc4Model true).length = sc4Model.windows.length ∧
    (ncp_compute_front sc4Model false).length = sc4Model.windows.length ∧
    (ncp_compute_front sc4Model true).length = sc4Model.windows.length := by
  refine ⟨rfl, ?_, ?_, ?_, ?_⟩ <;> simp [ncp_compute_back, ncp_compute_front]

/-- **C9.**  Every call of the pipeline entry point `gen_ncp_mtx` reads the
never-defined name `ncp_prims` and dies with the unbound-name error, having
issued no simulator invocation; no call ever completes. -/
theorem c9_gen_ncp_mtx_always_name_errors :
    ∀ (unpack : String → List Primitive) (model : Model) (out : String)
      (opt : Option String) (refl forw wrap solar : Bool),
      gen_ncp_mtx unpack model out opt refl forw wrap solar =
        ([], Except.error (PyErr.nameError "ncp_prims")) :=
  fun _ _ _ _ _ _ _ _ => rfl

/-- **C6.**  Receiver accumulation concatenates the two staged
descriptions, the left receiver's content first. -/
theorem c6_receiver_add_concatenates (a b : Receiver) :
    (Receiver.add a b).receiver = a.receiver ++ b.receiver :=
  rfl

/-- **C7 counterexample.**  Two member primitives share the identifier
`"a"` (each duplicates its sibling's identifier), yet `prepare_surface`
leaves both identifiers as `"a"` instead of renaming them to `"discarded"`:
the rename condition compares identifiers against the list of *modifiers*,
not against sibling identifiers. -/
theorem c7_counterexample :
    (c7prims.getD 0 default).identifier = (c7prims.getD 1 default).identifier ∧
    ((prepare_surface_prims c7prims).getD 0 default).identifier = "a" ∧
    ((prepare_surface_prims c7prims).getD 1 default).identifier = "a" ∧
    "a" ≠ "discarded" := by
  refine ⟨rfl, rfl, rfl, ?_⟩
  decide

/-- **C7 (amended).**  The staged description rewrites every member
primitive's modifier to the shared synthetic modifier `"rflx"` prefixed to
the first member's original modifier, and a member primitive is renamed to
the discard sentinel `"discarded"` exactly when its original identifier
occurs among the members' original modifiers; identifiers merely
duplicating a sibling's identifier are kept. -/
theorem c7_amended_rewrite (prims : List Primitive) :
    (prepare_surface_prims prims).length = prims.length ∧
    (∀ i, i < prims.length →
      ((prepare_surface_prims prims).getD i default).modifier =
        "rflx" ++ prims.headI.modifier) ∧
    (∀ i, i < prims.length →
      ((prepare_surface_prims prims).getD i default).identifier =
        if (prims.getD i default).identifier ∈ prims.map (fun p => p.modifier)
        then "discarded" else (prims.getD i default).identifier) := by
  have hlen : (prepare_surface_prims prims).length = prims.length := by
    simp [prepare_surface_prims]
  refine ⟨hlen, ?_, ?_⟩ <;> intro i hi
  · have hi2 : i < (prepare_surface_prims prims).length := by rw [hlen]; exact hi
    rw [List.getD_eq_getElem _ _ hi2]
    simp [prepare_surface_prims]
  · have hi2 : i < (prepare_surface_prims prims).length := by rw [hlen]; exact hi
    rw [List.getD_eq_getElem _ _ hi2, List.getD_eq_getElem _ _ hi]
    simp only [prepare_surface_prims, List.getElem_map]
    by_cases hmem : prims[i].identifier ∈ prims.map (fun p => p.modifier)
    · simp [hmem]
    · simp [hmem]

/-- Witness instantiating the amended C7 statement on the concrete
duplicate-identifier list. -/
theorem c7_amended_witness :
    (prepare_surface_prims c7prims).length = c7prims.length ∧
    (∀ i, i < c7prims.length →
      ((prepare_surface_prims c7prims).getD i default).modifier =
        "rflx" ++ c7prims.headI.modifier) ∧
    (∀ i, i < c7prims.length →
      ((prepare_surface_prims c7prims).getD i default).identifier =
        if (c7prims.getD i default).identifier ∈ c7prims.map (fun p => p.modifier)
        then "discarded" else (c7prims.getD i default).identifier) :=
  c7_amended_rewrite c7prims

/-- The command construction of `gen_mtx` succeeds for every sender except
a point-grid sender with `'c'` in the option string. -/
theorem gen_mtx_cmd_ok (sender : Sender) (receiver : Receiver) (env : List String)
    (out opt : String) (hcmd : ¬(sender.form = "pts" ∧ opt.contains 'c' = true)) :
    ∃ c, gen_mtx_cmd sender receiver env out opt = Except.ok c := by
  unfold gen_mtx_cmd
  by_cases h1 : sender.form = "srf"
  · simp [h1]
  · by_cases h2 : sender.form = "pts"
    · have h3 : opt.contains 'c' = false := by
        cases hcc : opt.contains 'c'
        · rfl
        · exact absurd ⟨h2, hcc⟩ hcmd
      simp [h1, h2, h3]
    · by_cases h4 : sender.form = "vu" <;> simp [h1, h2, h4]

/-- **C8.**  Once `gen_mtx` reaches its invocation, the staged resources —
the sender's file, the receiver's file, and the receiver's modifier file
when present — are all released, whatever the exit status of the external
invocation (including a failing non-zero one): the conclusion holds for
every `exitCode`. -/
theorem c8_gen_mtx_releases (fs : List String) (sender : Sender) (receiver : Receiver)
    (env : List String) (out opt : String) (exitCode : Int)
    (hnd : fs.Nodup)
    (hcmd : ¬(sender.form = "pts" ∧ opt.contains 'c' = true))
    (hs : sender.path ∈ fs) (hr : receiver.path ∈ fs)
    (hsr : receiver.path ≠ sender.path)
    (hm : ∀ m, receiver.modifier = some m →
      m ∈ fs ∧ m ≠ sender.path ∧ receiver.path ≠ m) :
    ∃ fs2, gen_mtx fs sender receiver env out opt exitCode = Except.ok (fs2, exitCode) ∧
      sender.path ∉ fs2 ∧ receiver.path ∉ fs2 ∧
      (∀ m, receiver.modifier = some m → m ∉ fs2) := by
  obtain ⟨c, hc⟩ := gen_mtx_cmd_ok sender receiver env out opt hcmd
  have hsr1 : Sender.remove sender fs = Except.ok (pyRemove fs sender.path) := by
    unfold Sender.remove os_remove
    rw [if_pos hs]
  have hnd1 : (pyRemove fs sender.path).Nodup := pyRemove_nodup _ hnd
  have hsp1 : sender.path ∉ pyRemove fs sender.path := not_mem_pyRemove_self hnd
  have hrp1 : receiver.path ∈ pyRemove fs sender.path := mem_pyRemove_of_ne hsr hr
  cases hmod : receiver.modifier with
  | none =>
      have hrr : Receiver.remove receiver (pyRemove fs sender.path) =
          Except.ok (pyRemove (pyRemove fs sender.path) receiver.path) := by
        unfold Receiver.remove
        rw [hmod]
        show os_remove (pyRemove fs sender.path) receiver.path = _
        unfold os_remove
        rw [if_pos hrp1]
      refine ⟨pyRemove (pyRemove fs sender.path) receiver.path, ?_, ?_, ?_, ?_⟩
      · unfold gen_mtx
        rw [hc, hsr1]
        show Except.bind (Receiver.remove receiver (pyRemove fs sender.path))
          (fun fs2 => Except.ok (fs2, exitCode)) = _
        rw [hrr]
        rfl
      · intro hmem
        exact hsp1 (pyRemove_subset hmem)
      · exact not_mem_pyRemove_self hnd1
      · intro m hm2
        simp at hm2
  | some m =>
      obtain ⟨hmfs, hmsp, hrpm⟩ := hm m hmod
      have hm1 : m ∈ pyRemove fs sender.path := mem_pyRemove_of_ne hmsp hmfs
      have hnd2 : (pyRemove (pyRemove fs sender.path) m).Nodup := pyRemove_nodup _ hnd1
      have hrp2 : receiver.path ∈ pyRemove (pyRemove fs sender.path) m :=
        mem_pyRemove_of_ne hrpm hrp1
      have hrr : Receiver.remove receiver (pyRemove fs sender.path) =
          Except.ok (pyRemove (pyRemove (pyRemove fs sender.path) m) receiver.path) := by
        unfold Receiver.remove
        rw [hmod]
        show Except.bind (os_remove (pyRemove fs sender.path) m) _ = _
        unfold os_remove
        rw [if_pos hm1]
        show os_remove (pyRemove (pyRemove fs sender.path) m) receiver.path = _
        unfold os_remove
        rw [if_pos hrp2]
      refine ⟨pyRemove (pyRemove (pyRemove fs sender.path) m) receiver.path,
        ?_, ?_, ?_, ?_⟩
      · unfold gen_mtx
        rw [hc, hsr1]
        show Except.bind (Receiver.remove receiver (pyRemove fs sender.path))
          (fun fs2 => Except.ok (fs2, exitCode)) = _
        rw [hrr]
        rfl
      · intro hmem
        exact hsp1 (pyRemove_subset (pyRemove_subset hmem))
      · exact not_mem_pyRemove_self hnd2
      · intro m2 hm2
        injection hm2 with hmm2
        subst hmm2
        intro hmem
        exact (not_mem_pyRemove_self hnd1) (pyRemove_subset hmem)

/-- Witness for C8 on a concrete failing invocation (`exitCode = 1`). -/
theorem c8_witness :
    c8fs.Nodup ∧
    (¬(c8sender.form = "pts" ∧ ("-ab 1").contains 'c' = true)) ∧
    c8sender.path ∈ c8fs ∧ c8receiver.path ∈ c8fs ∧
    c8receiver.path ≠ c8sender.path ∧
    (∀ m, c8receiver.modifier = some m →
      m ∈ c8fs ∧ m ≠ c8sender.path ∧ c8receiver.path ≠ m) ∧
    ∃ fs2, gen_mtx c8fs c8sender c8receiver [] "o" "-ab 1" 1 = Except.ok (fs2, 1) ∧
      c8sender.path ∉ fs2 ∧ c8receiver.path ∉ fs2 ∧
      (∀ m, c8receiver.modifier = some m → m ∉ fs2) :=
  ⟨by decide, fun h => absurd h.1 (by decide), by decide, by decide, by decide,
    fun m hm => by
      injection hm with h2
      subst h2
      exact ⟨by decide, by decide, by decide⟩,
    c8_gen_mtx_releases c8fs c8sender c8receiver [] "o" "-ab 1" 1 (by decide)
      (fun h => absurd h.1 (by decide)) (by decide) (by decide) (by decide)
      (fun m hm => by
        injection hm with h2
        subst h2
        exact ⟨by decide, by decide, by decide⟩)⟩

/-- **C10.**  `A + B` returns the reference `A` itself; in the result
store, `A`'s in-memory description is the concatenation while its path,
basis and modifier are untouched, `B`'s object is unchanged, and no file is
written — in particular the staged file at `A`'s path still holds exactly
`A`'s original description. -/
theorem c10_receiver_add_mutates_left (σ : RStore) (a b : ℕ) (hab : a ≠ b)
    (hdisk : σ.files.lookup ((σ.objs a).path) = some ((σ.objs a).receiver)) :
    (receiver_add_stateful σ a b).2 = a ∧
    (((receiver_add_stateful σ a b).1).objs a).receiver =
      (σ.objs a).receiver ++ (σ.objs b).receiver ∧
    ((receiver_add_stateful σ a b).1).objs b = σ.objs b ∧
    ((receiver_add_stateful σ a b).1).files = σ.files ∧
    (((receiver_add_stateful σ a b).1).objs a).path = (σ.objs a).path ∧
    (((receiver_add_stateful σ a b).1).objs a).basis = (σ.objs a).basis ∧
    (((receiver_add_stateful σ a b).1).objs a).modifier = (σ.objs a).modifier ∧
    ((receiver_add_stateful σ a b).1).files.lookup
      ((((receiver_add_stateful σ a b).1).objs a).path) = some ((σ.objs a).receiver) := by
  refine ⟨rfl, ?_, ?_, rfl, ?_, ?_, ?_, ?_⟩ <;>
    simp [receiver_add_stateful, Function.update_same, Function.update_noteq (Ne.symm hab),
      hdisk]

/-- Witness for C10 on the concrete two-receiver store. -/
theorem c10_witness :
    ((0 : ℕ) ≠ 1) ∧
    (c10store.files.lookup ((c10store.objs 0).path) = some ((c10store.objs 0).receiver)) ∧
    ((receiver_add_stateful c10store 0 1).2 = 0 ∧
      (((receiver_add_stateful c10store 0 1).1).objs 0).receiver =
        (c10store.objs 0).receiver ++ (c10store.objs 1).receiver ∧
      ((receiver_add_stateful c10store 0 1).1).objs 1 = c10store.objs 1 ∧
      ((receiver_add_stateful c10store 0 1).1).files = c10store.files ∧
      (((receiver_add_stateful c10store 0 1).1).objs 0).path = (c10store.objs 0).path ∧
      (((receiver_add_stateful c10store 0 1).1).objs 0).basis = (c10store.objs 0).basis ∧
      (((receiver_add_stateful c10store 0 1).1).objs 0).modifier =
        (c10store.objs 0).modifier ∧
      ((receiver_add_stateful c10store 0 1).1).files.lookup
        ((((receiver_add_stateful c10store 0 1).1).objs 0).path) =
        some ((c10store.objs 0).receiver)) :=
  ⟨by decide, by decide,
    c10_receiver_add_mutates_left c10store 0 1 (by decide) (by decide)⟩

end Frads
